import Mathlib

/-!
Verification development for the tfxhub/builder build-orchestration core.

The TypeScript sources (src/build.ts, src/clear.ts, src/types.ts, src/cli.ts)
are shallowly embedded below.  Conventions used throughout:

* Filesystem paths are modelled as lists of path components
  (string interpolation such as cwd + "/" + p in the source becomes
  cwd ++ [p]; every configured segment in this repository is slash-free).
* The event-driven callbacks of the orchestrator are modelled as explicit
  state machines processing a list of events in arrival order; promises are
  modelled as the first settlement produced while processing the events.
* ANSI colour wrappers (kleur) and emoji prefixes in log and error strings
  are elided; the informative text of each message is kept verbatim.
* Per the specification of the Completion Aggregator, per-target completion
  hooks fire in configured list order within a pass and passes are not
  interleaved; a pass is therefore modelled as the ordered sequence of one
  completion event per configured context.
-/

namespace Builder

/-! ## Completion aggregator (src/build.ts, watchPlugin, lines 312-339) -/

/-- Observable action performed by the watch-plugin onEnd hook. -/
inductive Action where
  | logSuccess (name status : String)
  | manifestTrigger
  | watchingLog
  | typesTrigger
deriving DecidableEq, Repr, BEq

/-- Configuration visible to the onEnd hook: length of the configured
context list and the flags destructured at the top of build(). -/
structure AggConfig where
  numContexts : Nat
  generateManifest : Bool
  production : Bool
  shouldGenerateTypes : Bool
deriving DecidableEq, Repr

/-- JS name.charAt(0).toUpperCase() + name.slice(1) (build.ts line 318). -/
def capitalize (s : String) : String :=
  match s.data with
  | [] => ""
  | c :: cs => String.mk (Char.toUpper c :: cs)

/-- The downstream-action block of the onEnd hook (build.ts lines 326-336):
manifest trigger when enabled, then the watching log in development, then
type generation in production when enabled. -/
def downstreamBlock (cfg : AggConfig) : List Action :=
  (if cfg.generateManifest then [Action.manifestTrigger] else [])
    ++ (if !cfg.production then [Action.watchingLog] else [])
    ++ (if cfg.production && cfg.shouldGenerateTypes then [Action.typesTrigger] else [])

/-- The body of the watch-plugin onEnd callback (build.ts lines 316-336) for
the context at position i, on that context's pass number count, given the
error list of the finished pass.  On a clean pass it logs success (in
development) and, when the context is the last configured one
(i + 1 >= contexts.length), performs the downstream block.  On a non-empty
error list it throws before the counter increment and the downstream block
are reached. -/
def onEnd (cfg : AggConfig) (i : Nat) (ctxName : String) (count : Nat)
    (errors : List String) : Except String (List Action) :=
  let status := if count == 0 then "built" else "rebuilt"
  let name := capitalize ctxName
  if errors.length == 0 then
    Except.ok ((if !cfg.production then [Action.logSuccess name status] else [])
      ++ (if i + 1 ≥ cfg.numContexts then downstreamBlock cfg else []))
  else
    Except.error (name ++ " " ++ status ++ " with errors!")

/-- A pass in which every listed context reports an empty error list. -/
def cleanPass (names : List String) : List (String × List String) :=
  names.map (fun n => (n, []))

/-- Process the completion events of one pass in order, starting at context
position i; the actions of each hook are accumulated and a thrown error
aborts the remainder of the pass. -/
def runPassAux (cfg : AggConfig) (i count : Nat) :
    List (String × List String) → List Action × Option String
  | [] => ([], none)
  | (nm, errs) :: rest =>
    match onEnd cfg i nm count errs with
    | Except.error e => ([], some e)
    | Except.ok acts =>
      let r := runPassAux cfg (i + 1) count rest
      (acts ++ r.1, r.2)

/-- Process one full pass (events for contexts 0, 1, ... in configured
order). -/
def runPass (cfg : AggConfig) (pass : List (String × List String)) (count : Nat) :
    List Action × Option String :=
  runPassAux cfg 0 count pass

/-- The actions of P consecutive clean passes (pass p runs with per-context
counter p). -/
def multiPassTrace (cfg : AggConfig) (names : List String) (P : Nat) : List Action :=
  ((List.range P).map (fun p => (runPass cfg (cleanPass names) p).1)).flatten

/-- Whether an action is one of the downstream actions of the aggregator. -/
def isDownstream : Action → Bool
  | Action.manifestTrigger => true
  | Action.watchingLog => true
  | Action.typesTrigger => true
  | _ => false

/-- Number of downstream actions in a trace. -/
def downstreamCount (l : List Action) : Nat := (l.filter isDownstream).length

/-- Number of occurrences of one particular action in a trace. -/
def countAction (a : Action) (l : List Action) : Nat :=
  (l.filter (fun b => b == a)).length

/-- Exit code of the cli entry point (src/cli.ts, lines 130-133): any error
propagating out of the selected command is caught, logged and turned into
process.exit(1). -/
def mainExitCode : Option String → Nat
  | some _ => 1
  | none => 0

/-! ### Aggregator lemmas -/

theorem onEnd_nil (cfg : AggConfig) (i count : Nat) (nm : String) :
    onEnd cfg i nm count [] =
      Except.ok ((if !cfg.production then
          [Action.logSuccess (capitalize nm) (if count == 0 then "built" else "rebuilt")]
        else [])
        ++ (if i + 1 ≥ cfg.numContexts then downstreamBlock cfg else [])) := rfl

theorem onEnd_err (cfg : AggConfig) (i count : Nat) (nm e : String)
    (errs : List String) :
    onEnd cfg i nm count (e :: errs) =
      Except.error (capitalize nm ++ " "
        ++ (if count == 0 then "built" else "rebuilt") ++ " with errors!") := rfl

theorem runPassAux_cons_clean (cfg : AggConfig) (i count : Nat) (nm : String)
    (rest : List (String × List String)) :
    runPassAux cfg i count ((nm, []) :: rest) =
      (((if !cfg.production then
            [Action.logSuccess (capitalize nm) (if count == 0 then "built" else "rebuilt")]
          else [])
          ++ (if i + 1 ≥ cfg.numContexts then downstreamBlock cfg else []))
          ++ (runPassAux cfg (i + 1) count rest).1,
        (runPassAux cfg (i + 1) count rest).2) := rfl

theorem runPassAux_clean_none (cfg : AggConfig) :
    ∀ (names : List String) (i count : Nat),
      (runPassAux cfg i count (cleanPass names)).2 = none := by
  intro names
  induction names with
  | nil => intro i count; simp [cleanPass, runPassAux]
  | cons nm rest ih =>
    intro i count
    rw [show cleanPass (nm :: rest) = (nm, ([] : List String)) :: cleanPass rest from rfl,
      runPassAux_cons_clean]
    exact ih (i + 1) count

theorem runPassAux_append_clean (cfg : AggConfig) :
    ∀ (pre : List String) (i count : Nat) (tail : List (String × List String)),
      runPassAux cfg i count (cleanPass pre ++ tail) =
        ((runPassAux cfg i count (cleanPass pre)).1
            ++ (runPassAux cfg (i + pre.length) count tail).1,
          (runPassAux cfg (i + pre.length) count tail).2) := by
  intro pre
  induction pre with
  | nil => intro i count tail; simp [cleanPass, runPassAux]
  | cons nm rest ih =>
    intro i count tail
    have hidx : i + (nm :: rest).length = (i + 1) + rest.length := by
      simp only [List.length_cons]; omega
    rw [hidx,
      show cleanPass (nm :: rest) ++ tail
          = (nm, ([] : List String)) :: (cleanPass rest ++ tail) from rfl,
      runPassAux_cons_clean, ih (i + 1) count tail,
      show cleanPass (nm :: rest) = (nm, ([] : List String)) :: cleanPass rest from rfl,
      runPassAux_cons_clean]
    simp [List.append_assoc]

theorem filterCount_runPassAux_clean (cfg : AggConfig) (g : Action → Bool)
    (hg : ∀ nm st, g (Action.logSuccess nm st) = false) :
    ∀ (names : List String) (i count : Nat), i + names.length ≤ cfg.numContexts →
      ((runPassAux cfg i count (cleanPass names)).1.filter g).length =
        if i + names.length = cfg.numContexts ∧ names ≠ [] then
          ((downstreamBlock cfg).filter g).length
        else 0 := by
  intro names
  induction names with
  | nil =>
    intro i count _
    simp [cleanPass, runPassAux]
  | cons nm rest ih =>
    intro i count hle
    simp only [List.length_cons] at hle
    rw [show cleanPass (nm :: rest) = (nm, ([] : List String)) :: cleanPass rest from rfl,
      runPassAux_cons_clean]
    have hrec := ih (i + 1) count (by omega)
    have hlog : ((if !cfg.production then
        [Action.logSuccess (capitalize nm) (if count == 0 then "built" else "rebuilt")]
        else []).filter g).length = 0 := by
      cases cfg.production <;> simp [hg]
    simp only [List.filter_append, List.length_append, hrec, hlog, Nat.zero_add,
      List.length_cons, ne_eq, List.cons_ne_nil, not_false_eq_true, and_true]
    rcases Decidable.em (rest = []) with hrest | hrest
    · subst hrest
      simp only [List.length_nil, Nat.add_zero, ne_eq, not_true_eq_false, and_false,
        if_false, Nat.add_zero]
      by_cases hN : i + 1 = cfg.numContexts
      · have hge : i + 1 ≥ cfg.numContexts := by omega
        simp [hge, hN]
      · have hge : ¬ (i + 1 ≥ cfg.numContexts) := by omega
        simp [hge, hN]
    · have hlt : 1 ≤ rest.length := by
        cases rest with
        | nil => exact absurd rfl hrest
        | cons a b => simp
      have hge : ¬ (i + 1 ≥ cfg.numContexts) := by omega
      simp only [hge, if_false, List.filter_nil, List.length_nil, Nat.zero_add,
        ne_eq, hrest, not_false_eq_true, and_true]
      have harith : i + 1 + rest.length = cfg.numContexts
          ↔ i + (rest.length + 1) = cfg.numContexts := by omega
      by_cases hsum : i + 1 + rest.length = cfg.numContexts
      · simp [hsum, harith.mp hsum]
      · have : ¬ (i + (rest.length + 1) = cfg.numContexts) := fun h =>
          hsum (harith.mpr h)
        simp [hsum, this]

theorem downstreamCount_append (a b : List Action) :
    downstreamCount (a ++ b) = downstreamCount a + downstreamCount b := by
  simp [downstreamCount, List.filter_append]

/-- C1: for every configured target list of length N and every build pass,
the downstream actions (manifest trigger, watching log, type generation) are
invoked exactly once for that pass, and only after all N targets have
reported completion of that pass: a clean pass never throws, each enabled
downstream action occurs exactly once in the pass's action trace, every
proper prefix of the pass (k < N completions) contains no downstream action,
and across P consecutive passes the downstream block occurs exactly P times
in total.  (Per spec section 4.3, hooks fire in configured order within a
pass and passes are not interleaved.) -/
theorem aggregator_fires_once_per_pass (cfg : AggConfig) (names : List String)
    (hlen : cfg.numContexts = names.length) (hne : names ≠ [])
    (P count k : Nat) (hk : k < names.length) :
    (runPass cfg (cleanPass names) count).2 = none
    ∧ countAction Action.manifestTrigger (runPass cfg (cleanPass names) count).1
        = (if cfg.generateManifest then 1 else 0)
    ∧ countAction Action.watchingLog (runPass cfg (cleanPass names) count).1
        = (if cfg.production then 0 else 1)
    ∧ countAction Action.typesTrigger (runPass cfg (cleanPass names) count).1
        = (if cfg.production && cfg.shouldGenerateTypes then 1 else 0)
    ∧ downstreamCount (runPassAux cfg 0 count (cleanPass (names.take k))).1 = 0
    ∧ downstreamCount (multiPassTrace cfg names P)
        = P * downstreamCount (downstreamBlock cfg) := by
  have hcond : 0 + names.length = cfg.numContexts ∧ names ≠ [] := ⟨by omega, hne⟩
  have hcount : ∀ (g : Action → Bool), (∀ nm st, g (Action.logSuccess nm st) = false) →
      ∀ c, ((runPassAux cfg 0 c (cleanPass names)).1.filter g).length
        = ((downstreamBlock cfg).filter g).length := by
    intro g hg c
    have h := filterCount_runPassAux_clean cfg g hg names 0 c (by omega)
    rwa [if_pos hcond] at h
  refine ⟨runPassAux_clean_none cfg names 0 count, ?_, ?_, ?_, ?_, ?_⟩
  · show ((runPassAux cfg 0 count (cleanPass names)).1.filter _).length = _
    rw [hcount (fun b => b == Action.manifestTrigger) (fun nm st => rfl) count]
    obtain ⟨N, gm, prod, gt⟩ := cfg
    cases gm <;> cases prod <;> cases gt <;> rfl
  · show ((runPassAux cfg 0 count (cleanPass names)).1.filter _).length = _
    rw [hcount (fun b => b == Action.watchingLog) (fun nm st => rfl) count]
    obtain ⟨N, gm, prod, gt⟩ := cfg
    cases gm <;> cases prod <;> cases gt <;> rfl
  · show ((runPassAux cfg 0 count (cleanPass names)).1.filter _).length = _
    rw [hcount (fun b => b == Action.typesTrigger) (fun nm st => rfl) count]
    obtain ⟨N, gm, prod, gt⟩ := cfg
    cases gm <;> cases prod <;> cases gt <;> rfl
  · have h := filterCount_runPassAux_clean cfg isDownstream (fun nm st => rfl)
      (names.take k) 0 count ?_
    · have hk' : (names.take k).length = k := by
        rw [List.length_take]; omega
      have hcond' : ¬ (0 + (names.take k).length = cfg.numContexts
          ∧ names.take k ≠ []) := by
        intro ⟨h1, _⟩
        rw [hk'] at h1
        omega
      rw [if_neg hcond'] at h
      exact h
    · rw [List.length_take]; omega
  · have hpass : ∀ c, downstreamCount (runPass cfg (cleanPass names) c).1
        = downstreamCount (downstreamBlock cfg) :=
      fun c => hcount isDownstream (fun nm st => rfl) c
    induction P with
    | zero => simp [multiPassTrace, downstreamCount]
    | succ p ih =>
      rw [multiPassTrace, List.range_succ, List.map_append, List.flatten_append]
      rw [show ((List.range p).map
          (fun q => (runPass cfg (cleanPass names) q).1)).flatten
        = multiPassTrace cfg names p from rfl]
      simp only [List.map_cons, List.map_nil, List.flatten_cons, List.flatten_nil,
        List.append_nil]
      rw [downstreamCount_append, ih, hpass p, Nat.succ_mul]

/-- C1 witness: two targets (server, client), manifest and types enabled,
development mode, pass number 1, three full passes. -/
theorem aggregator_fires_once_per_pass_witness :
    (runPass ⟨2, true, false, true⟩ (cleanPass ["server", "client"]) 1).2 = none
    ∧ countAction Action.manifestTrigger
        (runPass ⟨2, true, false, true⟩ (cleanPass ["server", "client"]) 1).1
        = (if (true : Bool) then 1 else 0)
    ∧ countAction Action.watchingLog
        (runPass ⟨2, true, false, true⟩ (cleanPass ["server", "client"]) 1).1
        = (if (false : Bool) then 0 else 1)
    ∧ countAction Action.typesTrigger
        (runPass ⟨2, true, false, true⟩ (cleanPass ["server", "client"]) 1).1
        = (if (false && true : Bool) then 1 else 0)
    ∧ downstreamCount
        (runPassAux ⟨2, true, false, true⟩ 0 1
          (cleanPass (["server", "client"].take 1))).1 = 0
    ∧ downstreamCount (multiPassTrace ⟨2, true, false, true⟩ ["server", "client"] 3)
        = 3 * downstreamCount (downstreamBlock ⟨2, true, false, true⟩) :=
  aggregator_fires_once_per_pass ⟨2, true, false, true⟩ ["server", "client"]
    rfl (by decide) 3 1 1 (by decide)

/-- C2: if a target's build pass reports a non-empty error list, the
completion hook raises the fatal error, no downstream action (manifest,
watching log or type generation) fires for that pass, and the cli entry
point exits non-zero. -/
theorem compile_error_fatal (cfg : AggConfig) (pre : List String) (nm e : String)
    (errs : List String) (rest : List (String × List String)) (count : Nat)
    (hpre : pre.length < cfg.numContexts) :
    (runPass cfg (cleanPass pre ++ (nm, e :: errs) :: rest) count).2 =
      some (capitalize nm ++ " " ++ (if count == 0 then "built" else "rebuilt")
        ++ " with errors!")
    ∧ downstreamCount (runPass cfg (cleanPass pre ++ (nm, e :: errs) :: rest) count).1
        = 0
    ∧ mainExitCode (runPass cfg (cleanPass pre ++ (nm, e :: errs) :: rest) count).2
        = 1 := by
  have htail : runPassAux cfg (0 + pre.length) count ((nm, e :: errs) :: rest)
      = ([], some (capitalize nm ++ " "
          ++ (if count == 0 then "built" else "rebuilt") ++ " with errors!")) := by
    simp [runPassAux, onEnd_err]
  have happ := runPassAux_append_clean cfg pre 0 count ((nm, e :: errs) :: rest)
  rw [htail] at happ
  show (runPassAux cfg 0 count _).2 = _ ∧ downstreamCount (runPassAux cfg 0 count _).1 = _
    ∧ mainExitCode (runPassAux cfg 0 count _).2 = _
  rw [happ]
  refine ⟨rfl, ?_, rfl⟩
  have h0 := filterCount_runPassAux_clean cfg isDownstream (fun nm st => rfl)
    pre 0 count (by omega)
  have hcond : ¬ (0 + pre.length = cfg.numContexts ∧ pre ≠ []) := by
    intro ⟨h1, _⟩; omega
  rw [if_neg hcond] at h0
  simpa [downstreamCount] using h0

/-- C2 witness: first pass, the server target (position 0 of 2) reports a
single error string. -/
theorem compile_error_fatal_witness :
    (runPass ⟨2, true, false, true⟩
        (cleanPass [] ++ ("server", ["TS2322: type error"] ) :: [("client", [])]) 0).2 =
      some (capitalize "server" ++ " " ++ (if (0 : Nat) == 0 then "built" else "rebuilt")
        ++ " with errors!")
    ∧ downstreamCount (runPass ⟨2, true, false, true⟩
        (cleanPass [] ++ ("server", ["TS2322: type error"]) :: [("client", [])]) 0).1 = 0
    ∧ mainExitCode (runPass ⟨2, true, false, true⟩
        (cleanPass [] ++ ("server", ["TS2322: type error"]) :: [("client", [])]) 0).2
        = 1 :=
  compile_error_fatal ⟨2, true, false, true⟩ [] "server" "TS2322: type error" []
    [("client", [])] 0 (by decide)

/-! ## String utilities for readiness sniffing -/

/-- Boolean prefix test on lists of characters. -/
def pfxChars : List Char → List Char → Bool
  | [], _ => true
  | _ :: _, [] => false
  | a :: as, b :: bs => decide (a = b) && pfxChars as bs

/-- Boolean infix (substring) test on lists of characters. -/
def infixChars (needle : List Char) : List Char → Bool
  | [] => needle.isEmpty
  | c :: rest => pfxChars needle (c :: rest) || infixChars needle rest

/-- JS String.prototype.includes on the character sequences of the two
strings. -/
def strIncludes (hay needle : String) : Bool := infixChars needle.data hay.data

/-- JS String.prototype.toLowerCase (ASCII case folding suffices for the
markers scanned here). -/
def lowerStr (s : String) : String := String.mk (s.data.map Char.toLower)

/-- Exit-code rendering of a Node close/exit callback argument: a number, or
null when the process was killed by a signal. -/
def codeStr : Option Int → String
  | none => "null"
  | some n => toString n

/-! ## External process supervisor, production flavour
(src/build.ts, spawnWebBuild, lines 96-121) -/

/-- First settlement cause of the spawned production build process: a close
event carrying an exit code, or a spawn-level error event. -/
inductive ProcOutcome where
  | exited (code : Option Int)
  | spawnError (msg : String)
deriving DecidableEq, Repr

/-- The production branch of spawnWebBuild: the close handler resolves on
exit code 0 and rejects with "Web build process exited with code ..."
otherwise; the error handler rejects with the spawn error. -/
def spawnWebBuildProd : ProcOutcome → Except String Unit
  | ProcOutcome.exited code =>
    if code == some 0 then Except.ok ()
    else Except.error ("Web build process exited with code " ++ codeStr code)
  | ProcOutcome.spawnError m => Except.error m

/-- Whether a promise-like result is a resolution. -/
def resolves : Except String Unit → Bool
  | Except.ok _ => true
  | Except.error _ => false

/-! ## External process supervisor, development flavour
(src/build.ts, spawnWebProcesses, lines 163-263) -/

/-- One observable event of the two development-mode web processes, in
arrival order: a stdout line from the dev server or the watch builder, an
exit of either process, or a spawn-level error of either process. -/
inductive WebEvent where
  | devLine (s : String)
  | buildLine (s : String)
  | devExit (code : Option Int)
  | buildExit (code : Option Int)
  | devError (msg : String)
  | buildError (msg : String)
deriving DecidableEq, Repr

/-- The dev-server readiness marker: a lowercased stdout line containing
"localhost" (build.ts line 196). -/
def isDevMarkerLine (s : String) : Bool := strIncludes (lowerStr s) "localhost"

/-- The watch-builder readiness marker: a lowercased stdout line containing
"built in" (build.ts line 232). -/
def isBuildMarkerLine (s : String) : Bool := strIncludes (lowerStr s) "built in"

/-- The two readiness flags of spawnWebProcesses. -/
structure WebSupState where
  devReady : Bool
  buildReady : Bool
deriving DecidableEq, Repr

/-- One event-handler step of spawnWebProcesses: returns the next state and
the settlement, if any, that this event produces.  Faithful to the handlers
of build.ts lines 191-261: a marker line flips the corresponding readiness
flag and tryResolve resolves once both flags hold; post-ready lines are only
relayed; an exit before the corresponding readiness flag rejects naming the
exit code; a spawn error of either process rejects. -/
def webStep (st : WebSupState) : WebEvent → WebSupState × Option (Except String Unit)
  | WebEvent.devLine s =>
    if st.devReady then (st, none)
    else if isDevMarkerLine s then
      ({ st with devReady := true },
        if st.buildReady then some (Except.ok ()) else none)
    else (st, none)
  | WebEvent.buildLine s =>
    if st.buildReady then (st, none)
    else if isBuildMarkerLine s then
      ({ st with buildReady := true },
        if st.devReady then some (Except.ok ()) else none)
    else (st, none)
  | WebEvent.devExit c =>
    (st, if st.devReady then none
      else some (Except.error ("Web dev process exited before ready (code "
        ++ codeStr c ++ ")")))
  | WebEvent.buildExit c =>
    (st, if st.buildReady then none
      else some (Except.error ("Web build exited before ready (code "
        ++ codeStr c ++ ")")))
  | WebEvent.devError m => (st, some (Except.error m))
  | WebEvent.buildError m => (st, some (Except.error m))

/-- Drive the spawnWebProcesses state machine over the events in arrival
order; the promise settles with the first settlement produced, reported
together with the position of the settling event. -/
def runWebSupAux (st : WebSupState) (k : Nat) :
    List WebEvent → Option (Nat × Except String Unit)
  | [] => none
  | e :: rest =>
    match webStep st e with
    | (st', none) => runWebSupAux st' (k + 1) rest
    | (_, some r) => some (k, r)

/-- The settlement of the spawnWebProcesses promise over a run of events,
starting from both readiness flags false. -/
def runWebSup (events : List WebEvent) : Option (Nat × Except String Unit) :=
  runWebSupAux ⟨false, false⟩ 0 events

/-- Position of the first event by which both the dev marker and the build
marker have been seen, given the flags already set. -/
def firstBothIdx (dr br : Bool) : List WebEvent → Option Nat
  | [] => none
  | e :: rest =>
    let dr' := dr || (match e with | WebEvent.devLine s => isDevMarkerLine s | _ => false)
    let br' := br || (match e with | WebEvent.buildLine s => isBuildMarkerLine s | _ => false)
    if dr' && br' then some 0 else (firstBothIdx dr' br' rest).map (· + 1)

/-- A run consisting only of stdout lines (no exits, no spawn errors). -/
def noFailEvents (events : List WebEvent) : Bool :=
  events.all (fun e => match e with
    | WebEvent.devLine _ => true
    | WebEvent.buildLine _ => true
    | _ => false)

/-- An event that neither changes the supervisor state nor settles the
promise: a stdout line not containing its process's readiness marker. -/
def inertEvent : WebEvent → Bool
  | WebEvent.devLine s => !isDevMarkerLine s
  | WebEvent.buildLine s => !isBuildMarkerLine s
  | _ => false

theorem webStep_inert (st : WebSupState) (e : WebEvent) (h : inertEvent e = true) :
    webStep st e = (st, none) := by
  cases e with
  | devLine s =>
    simp only [inertEvent, Bool.not_eq_true'] at h
    simp [webStep, h]
  | buildLine s =>
    simp only [inertEvent, Bool.not_eq_true'] at h
    simp [webStep, h]
  | devExit c => simp [inertEvent] at h
  | buildExit c => simp [inertEvent] at h
  | devError m => simp [inertEvent] at h
  | buildError m => simp [inertEvent] at h

theorem runWebSupAux_skip_inert (st : WebSupState) :
    ∀ (pre rest : List WebEvent) (k : Nat), pre.all inertEvent = true →
      runWebSupAux st k (pre ++ rest) = runWebSupAux st (k + pre.length) rest := by
  intro pre
  induction pre with
  | nil => intro rest k _; simp
  | cons e pre' ih =>
    intro rest k hall
    simp only [List.all_cons, Bool.and_eq_true] at hall
    rw [List.cons_append]
    show runWebSupAux st k (e :: (pre' ++ rest)) = _
    rw [show runWebSupAux st k (e :: (pre' ++ rest))
        = (match webStep st e with
          | (st', none) => runWebSupAux st' (k + 1) (pre' ++ rest)
          | (_, some r) => some (k, r)) from rfl,
      webStep_inert st e hall.1]
    show runWebSupAux st (k + 1) (pre' ++ rest) = _
    rw [ih rest (k + 1) hall.2]
    simp only [List.length_cons]
    congr 1
    omega

theorem runWebSupAux_cons (st : WebSupState) (k : Nat) (e : WebEvent)
    (rest : List WebEvent) :
    runWebSupAux st k (e :: rest) =
      (match webStep st e with
        | (st', none) => runWebSupAux st' (k + 1) rest
        | (_, some r) => some (k, r)) := rfl

theorem map_shift (o : Option Nat) (k : Nat) :
    (o.map (fun j => j + 1)).map
        (fun j => ((k + j, Except.ok ()) : Nat × Except String Unit))
      = o.map (fun j => ((k + 1 + j, Except.ok ()) : Nat × Except String Unit)) := by
  cases o with
  | none => rfl
  | some j =>
    have h : k + (j + 1) = k + 1 + j := by omega
    simp only [Option.map_some', h]

theorem runWebSupAux_noFail :
    ∀ (events : List WebEvent) (st : WebSupState) (k : Nat),
      noFailEvents events = true → (st.devReady && st.buildReady) = false →
      runWebSupAux st k events
        = (firstBothIdx st.devReady st.buildReady events).map
            (fun j => (k + j, Except.ok ())) := by
  intro events
  induction events with
  | nil => intro st k _ _; rfl
  | cons e rest ih =>
    intro st k hnf hst
    simp only [noFailEvents, List.all_cons, Bool.and_eq_true] at hnf
    have hnf' : noFailEvents rest = true := hnf.2
    have he := hnf.1
    obtain ⟨dr, br⟩ := st
    simp only at hst
    cases e with
    | devLine s =>
      rw [runWebSupAux_cons]
      cases dr with
      | true =>
        cases br with
        | true => simp at hst
        | false =>
          have hws : webStep ⟨true, false⟩ (WebEvent.devLine s)
              = (⟨true, false⟩, none) := by simp [webStep]
          rw [hws]
          show runWebSupAux ⟨true, false⟩ (k + 1) rest = _
          rw [ih ⟨true, false⟩ (k + 1) hnf' rfl]
          have hfb : firstBothIdx true false (WebEvent.devLine s :: rest)
              = Option.map (fun j => j + 1) (firstBothIdx true false rest) := by
            simp [firstBothIdx]
          rw [hfb, map_shift]
      | false =>
        cases hm : isDevMarkerLine s with
        | true =>
          cases br with
          | true =>
            have hws : webStep ⟨false, true⟩ (WebEvent.devLine s)
                = (⟨true, true⟩, some (Except.ok ())) := by simp [webStep, hm]
            rw [hws]
            have hfb : firstBothIdx false true (WebEvent.devLine s :: rest)
                = some 0 := by simp [firstBothIdx, hm]
            simp [hfb]
          | false =>
            have hws : webStep ⟨false, false⟩ (WebEvent.devLine s)
                = (⟨true, false⟩, none) := by simp [webStep, hm]
            rw [hws]
            show runWebSupAux ⟨true, false⟩ (k + 1) rest = _
            rw [ih ⟨true, false⟩ (k + 1) hnf' rfl]
            have hfb : firstBothIdx false false (WebEvent.devLine s :: rest)
                = Option.map (fun j => j + 1) (firstBothIdx true false rest) := by
              simp [firstBothIdx, hm]
            rw [hfb, map_shift]
        | false =>
          have hws : webStep ⟨false, br⟩ (WebEvent.devLine s)
              = (⟨false, br⟩, none) := by simp [webStep, hm]
          rw [hws]
          show runWebSupAux ⟨false, br⟩ (k + 1) rest = _
          rw [ih ⟨false, br⟩ (k + 1) hnf' rfl]
          have hfb : firstBothIdx false br (WebEvent.devLine s :: rest)
              = Option.map (fun j => j + 1) (firstBothIdx false br rest) := by
            simp [firstBothIdx, hm]
          rw [hfb, map_shift]
    | buildLine s =>
      rw [runWebSupAux_cons]
      cases br with
      | true =>
        cases dr with
        | true => simp at hst
        | false =>
          have hws : webStep ⟨false, true⟩ (WebEvent.buildLine s)
              = (⟨false, true⟩, none) := by simp [webStep]
          rw [hws]
          show runWebSupAux ⟨false, true⟩ (k + 1) rest = _
          rw [ih ⟨false, true⟩ (k + 1) hnf' rfl]
          have hfb : firstBothIdx false true (WebEvent.buildLine s :: rest)
              = Option.map (fun j => j + 1) (firstBothIdx false true rest) := by
            simp [firstBothIdx]
          rw [hfb, map_shift]
      | false =>
        cases hm : isBuildMarkerLine s with
        | true =>
          cases dr with
          | true =>
            have hws : webStep ⟨true, false⟩ (WebEvent.buildLine s)
                = (⟨true, true⟩, some (Except.ok ())) := by simp [webStep, hm]
            rw [hws]
            have hfb : firstBothIdx true false (WebEvent.buildLine s :: rest)
                = some 0 := by simp [firstBothIdx, hm]
            simp [hfb]
          | false =>
            have hws : webStep ⟨false, false⟩ (WebEvent.buildLine s)
                = (⟨false, true⟩, none) := by simp [webStep, hm]
            rw [hws]
            show runWebSupAux ⟨false, true⟩ (k + 1) rest = _
            rw [ih ⟨false, true⟩ (k + 1) hnf' rfl]
            have hfb : firstBothIdx false false (WebEvent.buildLine s :: rest)
                = Option.map (fun j => j + 1) (firstBothIdx false true rest) := by
              simp [firstBothIdx, hm]
            rw [hfb, map_shift]
        | false =>
          have hws : webStep ⟨dr, false⟩ (WebEvent.buildLine s)
              = (⟨dr, false⟩, none) := by simp [webStep, hm]
          rw [hws]
          show runWebSupAux ⟨dr, false⟩ (k + 1) rest = _
          rw [ih ⟨dr, false⟩ (k + 1) hnf' (by simp)]
          have hfb : firstBothIdx dr false (WebEvent.buildLine s :: rest)
              = Option.map (fun j => j + 1) (firstBothIdx dr false rest) := by
            simp [firstBothIdx, hm]
          rw [hfb, map_shift]
    | devExit c => simp at he
    | buildExit c => simp at he
    | devError m => simp at he
    | buildError m => simp at he

/-- C3: the production-mode web-build supervisor resolves if and only if the
spawned process exits with status 0; any other exit rejects with an error
identifying the exit code, and a spawn failure rejects with the spawn
error. -/
theorem spawnWebBuildProd_resolves_iff (o : ProcOutcome) (c : Option Int)
    (m : String) (hc : c ≠ some 0) :
    (resolves (spawnWebBuildProd o) = true ↔ o = ProcOutcome.exited (some 0))
    ∧ spawnWebBuildProd (ProcOutcome.exited c)
        = Except.error ("Web build process exited with code " ++ codeStr c)
    ∧ spawnWebBuildProd (ProcOutcome.spawnError m) = Except.error m := by
  refine ⟨⟨?_, ?_⟩, ?_, rfl⟩
  · intro h
    cases o with
    | exited code =>
      cases hb : code == some 0 with
      | true => rw [eq_of_beq hb]
      | false => simp [spawnWebBuildProd, hb, resolves] at h
    | spawnError m2 => simp [spawnWebBuildProd, resolves] at h
  · intro h
    subst h
    rfl
  · have h0 : (c == some 0) = false := by
      cases hb : c == some 0 with
      | true => exact absurd (eq_of_beq hb) hc
      | false => rfl
    simp [spawnWebBuildProd, h0]

/-- C3 witness: exit 0 resolves, exit 1 rejects naming the code, a spawn
error rejects with its message. -/
theorem spawnWebBuildProd_resolves_iff_witness :
    (resolves (spawnWebBuildProd (ProcOutcome.exited (some 0))) = true
        ↔ ProcOutcome.exited (some 0) = ProcOutcome.exited (some 0))
    ∧ spawnWebBuildProd (ProcOutcome.exited (some 1))
        = Except.error ("Web build process exited with code " ++ codeStr (some 1))
    ∧ spawnWebBuildProd (ProcOutcome.spawnError "spawn npm ENOENT")
        = Except.error "spawn npm ENOENT" :=
  spawnWebBuildProd_resolves_iff (ProcOutcome.exited (some 0)) (some 1)
    "spawn npm ENOENT" (by decide)

/-- C4 counterexample: in development mode the dev server emits a stdout
line containing the readiness marker (localhost), yet the supervisor used by
build in development mode (spawnWebProcesses) does not resolve upon that
line — it is still waiting for the watch builder's marker, and it registers
no grace-period timer that could resolve it later. -/
theorem dev_marker_alone_does_not_resolve :
    isDevMarkerLine "  Local:   http://localhost:5173/" = true
    ∧ runWebSup [WebEvent.devLine "  Local:   http://localhost:5173/"] = none := by
  exact ⟨rfl, rfl⟩

/-- C4 (amended): for development-mode invocations the supervisor
(spawnWebProcesses) resolves exactly at the first output event by which both
the dev server has emitted a line containing "localhost" and the watch
builder has emitted a line containing "built in"; a single marker line does
not resolve readiness, and if the markers never both appear the promise
never settles — there is no two-second grace-period fallback on this path
(the two-second timer exists only in spawnWebBuild's development branch,
which build does not invoke in development mode). -/
theorem devReadiness_requires_both_markers (events : List WebEvent)
    (h : noFailEvents events = true) :
    runWebSup events
      = (firstBothIdx false false events).map (fun j => (j, Except.ok ())) := by
  have hx := runWebSupAux_noFail events ⟨false, false⟩ 0 h rfl
  simpa using hx

/-- C4 (amended) witness: the dev server reports its local address, then the
watch builder reports a completed pass; readiness resolves at the second
event. -/
theorem devReadiness_requires_both_markers_witness :
    runWebSup [WebEvent.devLine "  Local:   http://localhost:5173/",
        WebEvent.buildLine "build finished: built in 420ms"]
      = (firstBothIdx false false
          [WebEvent.devLine "  Local:   http://localhost:5173/",
            WebEvent.buildLine "build finished: built in 420ms"]).map
          (fun j => (j, Except.ok ())) :=
  devReadiness_requires_both_markers
    [WebEvent.devLine "  Local:   http://localhost:5173/",
      WebEvent.buildLine "build finished: built in 420ms"] rfl

/-! ## Filesystem and the clear collaborator (src/clear.ts) -/

/-- A filesystem path, as its slash-separated components. -/
abbrev Path := List String

/-- Boolean prefix test on component paths (q is the target itself or lies
beneath it). -/
def pfx : Path → Path → Bool
  | [], _ => true
  | _ :: _, [] => false
  | a :: as, b :: bs => decide (a = b) && pfx as bs

/-- Node's rmSync with recursive removal, as called at clear.ts line 21: the
target and everything beneath it is removed.  With force true a missing
target is silently accepted; without force it raises ENOENT. -/
def rmSyncModel (fs : List Path) (target : Path) (force : Bool) :
    Except String (List Path) :=
  if fs.any (fun q => pfx target q) then
    Except.ok (fs.filter (fun q => !pfx target q))
  else if force then Except.ok fs
  else Except.error "ENOENT"

/-- One iteration of the clear loop (clear.ts lines 19-25): rmSync with
recursive and force set, wrapped in a try/catch that ignores any error. -/
def clearStepFs (cwd : Path) (fs : List Path) (p : Path) : List Path :=
  match rmSyncModel fs (cwd ++ p) true with
  | Except.ok fs' => fs'
  | Except.error _ => fs

/-- The default path list of the clear command (clear.ts line 17). -/
def defaultClearPaths : List Path := [["dist"], ["types"], ["fxmanifest.lua"]]

/-- The clear collaborator's effect on the filesystem: each path is deleted
under the working directory, in order. -/
def clearFs (fs : List Path) (cwd : Path) (paths : List Path) : List Path :=
  paths.foldl (clearStepFs cwd) fs

/-- The clear collaborator as a fallible operation: since every iteration of
its loop catches and ignores its own errors, it always returns normally. -/
def clearRun (fs : List Path) (cwd : Path) (paths : List Path) :
    Except String (List Path) :=
  Except.ok (clearFs fs cwd paths)

theorem pfx_append_cancel (l : Path) :
    ∀ (l1 l2 : Path), pfx (l ++ l1) (l ++ l2) = pfx l1 l2 := by
  induction l with
  | nil => intro l1 l2; rfl
  | cons c rest ih =>
    intro l1 l2
    show (decide (c = c) && pfx (rest ++ l1) (rest ++ l2)) = pfx l1 l2
    rw [decide_eq_true rfl, Bool.true_and, ih]

theorem clearStepFs_eq_filter (cwd : Path) (fs : List Path) (p : Path) :
    clearStepFs cwd fs p = fs.filter (fun q => !pfx (cwd ++ p) q) := by
  unfold clearStepFs rmSyncModel
  cases hany : fs.any (fun q => pfx (cwd ++ p) q) with
  | true => simp [hany]
  | false =>
    simp only [hany, Bool.false_eq_true, if_false, if_true]
    have : ∀ q ∈ fs, (!pfx (cwd ++ p) q) = true := by
      intro q hq
      have := List.any_eq_false.mp (by rw [hany]) q hq
      simp [this]
    exact (List.filter_eq_self.mpr this).symm

/-! ## The esbuild options assembled by build (src/build.ts, lines 341-349) -/

/-- The esbuild option record assembled for one context, restricted to the
fields build sets and the fields the shipped contexts use. -/
structure EsbuildOpts where
  bundle : Bool
  entryPoints : List Path
  outfile : Path
  keepNames : Bool
  dropLabels : Option (List String)
  legalComments : Option String
  platform : Option String
  target : Option (List String)
  format : Option String
deriving DecidableEq, Repr

/-- Per-context overrides carried in ContextItem.buildOptions; a field set
to some v is a key present in the object and wins in the spread
merge ... context.buildOptions. -/
structure BuildOptionOverrides where
  bundle : Option Bool := none
  entryPoints : Option (List Path) := none
  outfile : Option Path := none
  keepNames : Option Bool := none
  dropLabels : Option (Option (List String)) := none
  legalComments : Option (Option String) := none
  platform : Option String := none
  target : Option (List String) := none
  format : Option String := none
deriving DecidableEq, Repr

/-- A build context item (build.ts ContextItem): a target name together with
its esbuild option overrides.  (The source narrows name to the two literals
server and client.) -/
structure CtxItem where
  name : String
  buildOptions : BuildOptionOverrides
deriving DecidableEq, Repr

/-- Overrides of the default server context (build.ts lines 48-55). -/
def serverBuildOverrides : BuildOptionOverrides where
  platform := some "node"
  target := some ["node22"]
  format := some "cjs"

/-- Overrides of the default client context (build.ts lines 56-63). -/
def clientBuildOverrides : BuildOptionOverrides where
  platform := some "browser"
  target := some ["es2023"]
  format := some "iife"

/-- The default contexts shipped with the tool (build.ts lines 47-64). -/
def defaultContexts : List CtxItem :=
  [{ name := "server", buildOptions := serverBuildOverrides },
   { name := "client", buildOptions := clientBuildOverrides }]

/-- JS object spread: a key present in the overrides wins. -/
def mergeOpts (base : EsbuildOpts) (o : BuildOptionOverrides) : EsbuildOpts where
  bundle := o.bundle.getD base.bundle
  entryPoints := o.entryPoints.getD base.entryPoints
  outfile := o.outfile.getD base.outfile
  keepNames := o.keepNames.getD base.keepNames
  dropLabels := o.dropLabels.getD base.dropLabels
  legalComments := o.legalComments.getD base.legalComments
  platform := match o.platform with | some v => some v | none => base.platform
  target := match o.target with | some v => some v | none => base.target
  format := match o.format with | some v => some v | none => base.format

/-- The esbuild options build assembles for a context (build.ts lines
341-349): entry point srcPath/name/index.ts, outfile distPath/name.js,
bundling on, keepNames, the DEV label dropped exactly in production, inline
legal comments — then the spread of the context's own buildOptions. -/
def esbuildOptionsFor (cwd srcRel distRel : Path) (production : Bool)
    (c : CtxItem) : EsbuildOpts :=
  mergeOpts
    { bundle := true
      entryPoints := [cwd ++ srcRel ++ [c.name, "index.ts"]]
      outfile := cwd ++ distRel ++ [c.name ++ ".js"]
      keepNames := true
      dropLabels := if production then some ["DEV"] else none
      legalComments := some "inline"
      platform := none
      target := none
      format := none }
    c.buildOptions

/-! ## The build orchestrator (src/build.ts, build, lines 268-372) -/

/-- Options of the build entry point (BuildOptionsConfig) after the default
destructuring at build.ts lines 269-279.  includeWebBuild defaults to
hasWebFolder cwd in the source; it is kept explicit here because it depends
on the filesystem. -/
structure BuildRunCfg where
  cwd : Path
  srcRel : Path := ["src"]
  distRel : Path := ["dist"]
  production : Bool := false
  contexts : List CtxItem := defaultContexts
  generateManifest : Bool := true
  shouldGenerateTypes : Bool := true
  includeWebBuild : Bool
deriving Repr

/-- Auto-detection of the auxiliary web sub-project (build.ts lines 69-72):
whether the web subdirectory exists in the working directory. -/
def hasWebFolder (fs : List Path) (cwd : Path) : Bool :=
  fs.any (fun q => pfx (cwd ++ ["web"]) q)

/-- Top-level steps of the build orchestrator observable in this model. -/
inductive BuildStep where
  | clearStep (paths : List Path)
  | webFailureLogged
  | webPhaseOk
  | contextSetup (opts : EsbuildOpts)
  | installSignalHandlers
deriving DecidableEq, Repr

/-- How a build invocation terminates in this model: it runs to the end of
its setup, it throws an error, or it awaits a web-readiness promise that
never settles. -/
inductive BuildOutcome where
  | completed
  | threw (msg : String)
  | hung
deriving DecidableEq, Repr

/-- Result of a build invocation: its observable step trace, the filesystem
after its initial clear, and how it terminated. -/
structure BuildRunResult where
  trace : List BuildStep
  fs : List Path
  outcome : BuildOutcome
deriving Repr

/-- The setup steps for the configured contexts, in configured order. -/
def contextSteps (cfg : BuildRunCfg) : List BuildStep :=
  cfg.contexts.map (fun c =>
    BuildStep.contextSetup (esbuildOptionsFor cfg.cwd cfg.srcRel cfg.distRel
      cfg.production c))

/-- The build orchestrator (build.ts lines 268-372): clear the dist path,
then — when the web build is included — await the web phase, whose rejection
is logged and rethrown before any context is compiled; then set up each
context in order; finally, in development mode only, install the SIGINT and
SIGTERM handlers.  The web parameter is the settlement of the web phase
promise (none when it never settles). -/
def buildRun (cfg : BuildRunCfg) (fs : List Path)
    (web : Option (Except String Unit)) : BuildRunResult :=
  let fs' := clearFs fs cfg.cwd [cfg.distRel]
  let pre := [BuildStep.clearStep [cfg.distRel]]
  let tail := contextSteps cfg
    ++ (if cfg.production then [] else [BuildStep.installSignalHandlers])
  if cfg.includeWebBuild then
    match web with
    | none => ⟨pre, fs', BuildOutcome.hung⟩
    | some (Except.error e) =>
      ⟨pre ++ [BuildStep.webFailureLogged], fs', BuildOutcome.threw e⟩
    | some (Except.ok _) => ⟨pre ++ [BuildStep.webPhaseOk] ++ tail, fs', BuildOutcome.completed⟩
  else ⟨pre ++ tail, fs', BuildOutcome.completed⟩

/-- Settlement of the development web phase promise produced by
spawnWebProcesses over a run of events. -/
def settleResult : Option (Nat × Except String Unit) → Option (Except String Unit)
  | none => none
  | some (_, r) => some r

/-- Whether a build step is a context setup. -/
def isContextSetup : BuildStep → Bool
  | BuildStep.contextSetup _ => true
  | _ => false

/-! ## The shutdown coordinator (src/build.ts, cleanup, lines 357-371) -/

/-- Liveness of a tracked external process handle (ChildProcess.killed is
true once a kill was delivered). -/
structure ProcState where
  killed : Bool
deriving DecidableEq, Repr

/-- Observable actions of the cleanup signal handler. -/
inductive ShutdownAction where
  | logShutdownNotice
  | sendSigterm (which : String)
  | exitWith (code : Nat)
deriving DecidableEq, Repr

/-- The cleanup handler installed on SIGINT and SIGTERM (build.ts lines
358-367): log the shutdown notice, send SIGTERM to each tracked handle that
exists and is not already killed (dev server first, then the watch
builder), then exit the orchestrator with code 0. -/
def cleanup (webDevProcess webWatchBuildProcess : Option ProcState) :
    List ShutdownAction :=
  [ShutdownAction.logShutdownNotice]
    ++ (match webDevProcess with
      | some p => if p.killed then [] else [ShutdownAction.sendSigterm "webDevProcess"]
      | none => [])
    ++ (match webWatchBuildProcess with
      | some p => if p.killed then [] else [ShutdownAction.sendSigterm "webWatchBuildProcess"]
      | none => [])
    ++ [ShutdownAction.exitWith 0]

/-- The development-mode wiring of build (build.ts lines 288-301, else
branch): the web phase settles as the spawnWebProcesses promise settles over
the given event run. -/
def buildDev (cfg : BuildRunCfg) (fs : List Path) (events : List WebEvent) :
    BuildRunResult :=
  buildRun cfg fs (settleResult (runWebSup events))

/-! ## The types collaborator (src/types.ts) -/

/-- Rendering of a component path (path.join with the separator /). -/
def pathToString (p : Path) : String := String.intercalate "/" p

/-- The default source directories of generateTypes (types.ts line 21). -/
def typesSourceDirsDefault : List String := ["server", "client", "common"]

/-- The shell command generateTypes issues for one source directory
(types.ts lines 23-25): cd into cwd/src/dir and run tsc. -/
def typesCommand (cwd : Path) (dir : String) : String :=
  "cd " ++ pathToString (cwd ++ ["src", dir]) ++ " && tsc"

/-- The commands generateTypes issues, one per configured source
directory. -/
def generateTypesCommands (cwd : Path) (sourceDirs : List String) : List String :=
  sourceDirs.map (typesCommand cwd)

/-- Promise.all over the per-directory results (types.ts line 28),
determinised to list order: it fulfils when every member fulfils and rejects
with the first rejection. -/
def promiseAll : List (Except String Unit) → Except String Unit
  | [] => Except.ok ()
  | Except.ok _ :: rest => promiseAll rest
  | Except.error e :: _ => Except.error e

/-- Whether a per-directory result is a fulfilment. -/
def isOkU : Except String Unit → Bool
  | Except.ok _ => true
  | Except.error _ => false

/-- The log lines generateTypes itself emits: types.ts contains no console
call, so the function logs nothing regardless of the per-directory
outcomes; the only surfaced failure is the aggregate rejection reported by
the caller. -/
def generateTypesLogs (outcomes : List (Except String Unit)) : List String :=
  match outcomes with
  | _ => []

/-- Number of failing directories in a run of generateTypes. -/
def countFailures (outcomes : List (Except String Unit)) : Nat :=
  (outcomes.filter (fun r => !isOkU r)).length

/-! ### Helper lemmas for clear, build and types -/

theorem clearStepFs_absent (cwd : Path) (fs : List Path) (p : Path)
    (h : fs.any (fun r => pfx (cwd ++ p) r) = false) :
    clearStepFs cwd fs p = fs := by
  simp [clearStepFs, rmSyncModel, h]

theorem clearFs_all_absent (cwd : Path) :
    ∀ (paths : List Path) (fs : List Path),
      paths.all (fun q => !fs.any (fun r => pfx (cwd ++ q) r)) = true →
      clearFs fs cwd paths = fs := by
  intro paths
  induction paths with
  | nil => intro fs _; rfl
  | cons p rest ih =>
    intro fs hall
    simp only [List.all_cons, Bool.and_eq_true, Bool.not_eq_true'] at hall
    show clearFs (clearStepFs cwd fs p) cwd rest = fs
    rw [clearStepFs_absent cwd fs p hall.1]
    apply ih
    simp only [List.all_eq_true, Bool.not_eq_true'] at hall ⊢
    exact hall.2

theorem buildRun_fs (cfg : BuildRunCfg) (fs : List Path)
    (web : Option (Except String Unit)) :
    (buildRun cfg fs web).fs = clearFs fs cfg.cwd [cfg.distRel] := by
  unfold buildRun
  by_cases hw : cfg.includeWebBuild = true
  · rw [if_pos hw]
    cases web with
    | none => rfl
    | some r => cases r with
      | ok u => rfl
      | error e => rfl
  · rw [if_neg hw]

theorem promiseAll_ok_iff :
    ∀ (l : List (Except String Unit)),
      promiseAll l = Except.ok () ↔ l.all isOkU = true := by
  intro l
  induction l with
  | nil => simp [promiseAll]
  | cons r rest ih =>
    cases r with
    | ok u =>
      cases u
      simpa [promiseAll, isOkU] using ih
    | error e => simp [promiseAll, isOkU]

theorem promiseAll_skip_ok :
    ∀ (pre : List (Except String Unit)), pre.all isOkU = true →
      ∀ (tail : List (Except String Unit)),
        promiseAll (pre ++ tail) = promiseAll tail := by
  intro pre
  induction pre with
  | nil => intro _ tail; rfl
  | cons r pre' ih =>
    intro hall tail
    simp only [List.all_cons, Bool.and_eq_true] at hall
    cases r with
    | ok u =>
      cases u
      show promiseAll (pre' ++ tail) = promiseAll tail
      exact ih hall.2 tail
    | error e => simp [isOkU] at hall

/-- C5: if a development-mode web process (the dev server or the watch
builder) exits before its readiness marker has been seen, the supervisor
rejects with a descriptive error naming the exit code, and this error
propagates out of build, aborting orchestration startup before any target
context is set up. -/
theorem dev_exit_before_ready_aborts (pre rest : List WebEvent) (c : Option Int)
    (cfg : BuildRunCfg) (fs : List Path)
    (hpre : pre.all inertEvent = true) (_hprod : cfg.production = false)
    (hweb : cfg.includeWebBuild = true) :
    (runWebSup (pre ++ WebEvent.devExit c :: rest)
        = some (pre.length,
            Except.error ("Web dev process exited before ready (code "
              ++ codeStr c ++ ")"))
      ∧ (buildDev cfg fs (pre ++ WebEvent.devExit c :: rest)).outcome
          = BuildOutcome.threw ("Web dev process exited before ready (code "
              ++ codeStr c ++ ")")
      ∧ ((buildDev cfg fs (pre ++ WebEvent.devExit c :: rest)).trace.any
          isContextSetup) = false)
    ∧ (runWebSup (pre ++ WebEvent.buildExit c :: rest)
        = some (pre.length,
            Except.error ("Web build exited before ready (code "
              ++ codeStr c ++ ")"))
      ∧ (buildDev cfg fs (pre ++ WebEvent.buildExit c :: rest)).outcome
          = BuildOutcome.threw ("Web build exited before ready (code "
              ++ codeStr c ++ ")")
      ∧ ((buildDev cfg fs (pre ++ WebEvent.buildExit c :: rest)).trace.any
          isContextSetup) = false) := by
  have h1 : runWebSup (pre ++ WebEvent.devExit c :: rest)
      = some (pre.length,
          Except.error ("Web dev process exited before ready (code "
            ++ codeStr c ++ ")")) := by
    unfold runWebSup
    rw [runWebSupAux_skip_inert ⟨false, false⟩ pre (WebEvent.devExit c :: rest) 0 hpre,
      runWebSupAux_cons]
    simp [webStep]
  have h2 : runWebSup (pre ++ WebEvent.buildExit c :: rest)
      = some (pre.length,
          Except.error ("Web build exited before ready (code "
            ++ codeStr c ++ ")")) := by
    unfold runWebSup
    rw [runWebSupAux_skip_inert ⟨false, false⟩ pre (WebEvent.buildExit c :: rest) 0 hpre,
      runWebSupAux_cons]
    simp [webStep]
  have hb1 : buildDev cfg fs (pre ++ WebEvent.devExit c :: rest)
      = ⟨[BuildStep.clearStep [cfg.distRel], BuildStep.webFailureLogged],
          clearFs fs cfg.cwd [cfg.distRel],
          BuildOutcome.threw ("Web dev process exited before ready (code "
            ++ codeStr c ++ ")")⟩ := by
    unfold buildDev
    rw [h1]
    unfold buildRun
    rw [if_pos hweb]
    rfl
  have hb2 : buildDev cfg fs (pre ++ WebEvent.buildExit c :: rest)
      = ⟨[BuildStep.clearStep [cfg.distRel], BuildStep.webFailureLogged],
          clearFs fs cfg.cwd [cfg.distRel],
          BuildOutcome.threw ("Web build exited before ready (code "
            ++ codeStr c ++ ")")⟩ := by
    unfold buildDev
    rw [h2]
    unfold buildRun
    rw [if_pos hweb]
    rfl
  refine ⟨⟨h1, ?_, ?_⟩, h2, ?_, ?_⟩
  · rw [hb1]
  · rw [hb1]; rfl
  · rw [hb2]
  · rw [hb2]; rfl

/-- C5 witness: after one informational line, the dev server dies with exit
code 1 before printing its local address. -/
theorem dev_exit_before_ready_aborts_witness :
    (runWebSup [WebEvent.devLine "starting vite", WebEvent.devExit (some 1)]
        = some (1, Except.error ("Web dev process exited before ready (code "
            ++ codeStr (some 1) ++ ")"))
      ∧ (buildDev { cwd := ["proj"], includeWebBuild := true } []
            [WebEvent.devLine "starting vite", WebEvent.devExit (some 1)]).outcome
          = BuildOutcome.threw ("Web dev process exited before ready (code "
              ++ codeStr (some 1) ++ ")")
      ∧ ((buildDev { cwd := ["proj"], includeWebBuild := true } []
            [WebEvent.devLine "starting vite", WebEvent.devExit (some 1)]).trace.any
          isContextSetup) = false)
    ∧ (runWebSup [WebEvent.devLine "starting vite", WebEvent.buildExit (some 1)]
        = some (1, Except.error ("Web build exited before ready (code "
            ++ codeStr (some 1) ++ ")"))
      ∧ (buildDev { cwd := ["proj"], includeWebBuild := true } []
            [WebEvent.devLine "starting vite", WebEvent.buildExit (some 1)]).outcome
          = BuildOutcome.threw ("Web build exited before ready (code "
              ++ codeStr (some 1) ++ ")")
      ∧ ((buildDev { cwd := ["proj"], includeWebBuild := true } []
            [WebEvent.devLine "starting vite", WebEvent.buildExit (some 1)]).trace.any
          isContextSetup) = false) := by
  have h := dev_exit_before_ready_aborts [WebEvent.devLine "starting vite"] []
    (some 1) { cwd := ["proj"], includeWebBuild := true } [] (by rfl) rfl rfl
  simpa using h

/-- C6: signal handlers are installed only in non-production mode (a
production run's trace never contains the installation step, while a
non-production run that reaches the end of setup does), and on receiving an
interrupt or termination signal with two live auxiliary process handles the
handler logs a shutdown notice, sends termination requests to both handles,
and exits the orchestrator with code 0. -/
theorem shutdown_coordinator (cfgP cfgD : BuildRunCfg) (fsP fsD : List Path)
    (webP webD : Option (Except String Unit))
    (hP : cfgP.production = true) (hD : cfgD.production = false)
    (hDok : webD = some (Except.ok ()) ∨ cfgD.includeWebBuild = false) :
    BuildStep.installSignalHandlers ∉ (buildRun cfgP fsP webP).trace
    ∧ BuildStep.installSignalHandlers ∈ (buildRun cfgD fsD webD).trace
    ∧ cleanup (some ⟨false⟩) (some ⟨false⟩)
        = [ShutdownAction.logShutdownNotice,
           ShutdownAction.sendSigterm "webDevProcess",
           ShutdownAction.sendSigterm "webWatchBuildProcess",
           ShutdownAction.exitWith 0] := by
  have hnotin : ∀ cfg : BuildRunCfg,
      BuildStep.installSignalHandlers ∉ contextSteps cfg := by
    intro cfg
    simp [contextSteps]
  refine ⟨?_, ?_, rfl⟩
  · unfold buildRun
    by_cases hw : cfgP.includeWebBuild = true
    · rw [if_pos hw]
      cases webP with
      | none => simp
      | some r =>
        cases r with
        | error e => simp
        | ok u => simp [hP, hnotin cfgP]
    · rw [if_neg hw]
      simp [hP, hnotin cfgP]
  · unfold buildRun
    rcases hDok with hok | hnoweb
    · subst hok
      by_cases hw : cfgD.includeWebBuild = true
      · rw [if_pos hw]
        simp [hD]
      · rw [if_neg hw]
        simp [hD]
    · rw [if_neg (by rw [hnoweb]; exact Bool.false_ne_true)]
      simp [hD]

/-- C6 witness: a production run and a development run over the default
contexts, and the concrete scenario of two live handles. -/
theorem shutdown_coordinator_witness :
    BuildStep.installSignalHandlers ∉
        (buildRun { cwd := ["proj"], production := true, includeWebBuild := false }
          [] none).trace
    ∧ BuildStep.installSignalHandlers ∈
        (buildRun { cwd := ["proj"], production := false, includeWebBuild := false }
          [] none).trace
    ∧ cleanup (some ⟨false⟩) (some ⟨false⟩)
        = [ShutdownAction.logShutdownNotice,
           ShutdownAction.sendSigterm "webDevProcess",
           ShutdownAction.sendSigterm "webWatchBuildProcess",
           ShutdownAction.exitWith 0] :=
  shutdown_coordinator
    { cwd := ["proj"], production := true, includeWebBuild := false }
    { cwd := ["proj"], production := false, includeWebBuild := false }
    [] [] none none rfl rfl (Or.inr rfl)

/-- C7: invoking the clear operation on a set of paths that are all already
absent raises no error and returns the filesystem unchanged; a not-found
failure on any individual path (which rmSync without force would raise as
ENOENT) is ignored and does not prevent clearing the remaining paths. -/
theorem clear_already_absent_ok (fs : List Path) (cwd : Path)
    (paths : List Path) (p : Path) (rest : List Path)
    (habs : paths.all (fun q => !fs.any (fun r => pfx (cwd ++ q) r)) = true)
    (hp : fs.any (fun r => pfx (cwd ++ p) r) = false) :
    clearRun fs cwd paths = Except.ok fs
    ∧ clearFs fs cwd (p :: rest) = clearFs fs cwd rest
    ∧ rmSyncModel fs (cwd ++ p) false = Except.error "ENOENT" := by
  refine ⟨?_, ?_, ?_⟩
  · unfold clearRun
    rw [clearFs_all_absent cwd paths fs habs]
  · show clearFs (clearStepFs cwd fs p) cwd rest = clearFs fs cwd rest
    rw [clearStepFs_absent cwd fs p hp]
  · simp [rmSyncModel, hp]

/-- C7 witness: clearing the three default paths in a working directory
containing none of them. -/
theorem clear_already_absent_ok_witness :
    clearRun [["proj", "keep.txt"]] ["proj"] defaultClearPaths
        = Except.ok [["proj", "keep.txt"]]
    ∧ clearFs [["proj", "keep.txt"]] ["proj"] (["dist"] :: [["types"]])
        = clearFs [["proj", "keep.txt"]] ["proj"] [["types"]]
    ∧ rmSyncModel [["proj", "keep.txt"]] (["proj"] ++ ["dist"]) false
        = Except.error "ENOENT" :=
  clear_already_absent_ok [["proj", "keep.txt"]] ["proj"] defaultClearPaths
    ["dist"] [["types"]] (by decide) (by decide)

/-- C8 counterexample: a run of generateTypes in which the server directory
fails to type-check has one failing directory but produces no log line of
its own — types.ts contains no logging, so failures are not logged
individually; the only surfaced failure is the single aggregate rejection
(with the first failing directory's error). -/
theorem generateTypes_no_individual_logging :
    generateTypesLogs [Except.error "src/server: tsc exited with code 2",
        Except.ok (), Except.ok ()] = []
    ∧ countFailures [Except.error "src/server: tsc exited with code 2",
        Except.ok (), Except.ok ()] = 1
    ∧ promiseAll [Except.error "src/server: tsc exited with code 2",
        Except.error "src/client: tsc exited with code 2"]
        = Except.error "src/server: tsc exited with code 2" :=
  ⟨rfl, rfl, rfl⟩

/-- C8 (amended): generateTypes shells out to exactly one type-checking
compile step (cd cwd/src/dir and tsc) per configured source directory, with
server, client and common by default; a failure in any directory propagates
by rejecting the whole operation with the first failing directory's error,
and the operation fulfils exactly when every directory fulfils — but
failures are not logged individually inside generateTypes (it emits no log
lines; the caller reports one aggregate failure). -/
theorem generateTypes_per_directory (cwd : Path) (dirs : List String)
    (outcomes pre rest : List (Except String Unit)) (e : String)
    (hpre : pre.all isOkU = true) :
    generateTypesCommands cwd typesSourceDirsDefault
      = ["cd " ++ pathToString (cwd ++ ["src", "server"]) ++ " && tsc",
         "cd " ++ pathToString (cwd ++ ["src", "client"]) ++ " && tsc",
         "cd " ++ pathToString (cwd ++ ["src", "common"]) ++ " && tsc"]
    ∧ (generateTypesCommands cwd dirs).length = dirs.length
    ∧ (promiseAll outcomes = Except.ok () ↔ outcomes.all isOkU = true)
    ∧ promiseAll (pre ++ Except.error e :: rest) = Except.error e
    ∧ generateTypesLogs (pre ++ Except.error e :: rest) = [] := by
  refine ⟨rfl, ?_, promiseAll_ok_iff outcomes, ?_, rfl⟩
  · simp [generateTypesCommands]
  · rw [promiseAll_skip_ok pre hpre (Except.error e :: rest)]
    rfl

/-- C8 (amended) witness: default directories in a concrete working
directory, a clean prefix followed by a failing directory. -/
theorem generateTypes_per_directory_witness :
    generateTypesCommands ["proj"] typesSourceDirsDefault
      = ["cd " ++ pathToString (["proj"] ++ ["src", "server"]) ++ " && tsc",
         "cd " ++ pathToString (["proj"] ++ ["src", "client"]) ++ " && tsc",
         "cd " ++ pathToString (["proj"] ++ ["src", "common"]) ++ " && tsc"]
    ∧ (generateTypesCommands ["proj"] ["server"]).length = ["server"].length
    ∧ (promiseAll [Except.ok (), Except.error "boom"] = Except.ok ()
        ↔ ([Except.ok (), Except.error "boom"].all isOkU) = true)
    ∧ promiseAll ([Except.ok ()] ++ Except.error "tsc exited with code 2" :: [])
        = Except.error "tsc exited with code 2"
    ∧ generateTypesLogs ([Except.ok ()] ++ Except.error "tsc exited with code 2" :: [])
        = [] :=
  generateTypes_per_directory ["proj"] ["server"]
    [Except.ok (), Except.error "boom"] [Except.ok ()] []
    "tsc exited with code 2" rfl

/-- C9 counterexample: the spread of context.buildOptions happens after the
base options, so a configured context can override the bundle flag — at this
concrete input build configures the compiler with bundling disabled, against
the claim that bundling is always enabled for every configured context. -/
theorem bundle_overridden_by_context :
    (esbuildOptionsFor ["proj"] ["src"] ["dist"] false
        { name := "client", buildOptions := { bundle := some false } }).bundle
      = false := rfl

/-- C9 (amended): for every configured context whose buildOptions do not
override the entry points, the output file, the bundle flag or the
dropLabels option — as is the case for both shipped default contexts — build
configures the compiler with entry point cwd/srcPath/name/index.ts, output
file cwd/distPath/name.js, bundling enabled, and the DEV label-dropping
option set if and only if production is true; a context's buildOptions
spread can override any of these fields. -/
theorem esbuild_options_default_fields (cwd srcRel distRel : Path)
    (production : Bool) (c : CtxItem)
    (hb : c.buildOptions.bundle = none) (he : c.buildOptions.entryPoints = none)
    (ho : c.buildOptions.outfile = none) (hd : c.buildOptions.dropLabels = none) :
    (esbuildOptionsFor cwd srcRel distRel production c).bundle = true
    ∧ (esbuildOptionsFor cwd srcRel distRel production c).entryPoints
        = [cwd ++ srcRel ++ [c.name, "index.ts"]]
    ∧ (esbuildOptionsFor cwd srcRel distRel production c).outfile
        = cwd ++ distRel ++ [c.name ++ ".js"]
    ∧ ((esbuildOptionsFor cwd srcRel distRel production c).dropLabels
        = some ["DEV"] ↔ production = true)
    ∧ (defaultContexts.all (fun d => d.buildOptions.bundle == none
        && d.buildOptions.entryPoints == none && d.buildOptions.outfile == none
        && d.buildOptions.dropLabels == none)) = true := by
  refine ⟨?_, ?_, ?_, ?_, rfl⟩
  · simp [esbuildOptionsFor, mergeOpts, hb]
  · simp [esbuildOptionsFor, mergeOpts, he]
  · simp [esbuildOptionsFor, mergeOpts, ho]
  · simp only [esbuildOptionsFor, mergeOpts, hd, Option.getD_none]
    cases production with
    | true => simp
    | false => simp

/-- C9 (amended) witness: the default server context in production mode. -/
theorem esbuild_options_default_fields_witness :
    (esbuildOptionsFor ["proj"] ["src"] ["dist"] true
        { name := "server", buildOptions := serverBuildOverrides }).bundle = true
    ∧ (esbuildOptionsFor ["proj"] ["src"] ["dist"] true
        { name := "server", buildOptions := serverBuildOverrides }).entryPoints
        = [["proj"] ++ ["src"] ++ ["server", "index.ts"]]
    ∧ (esbuildOptionsFor ["proj"] ["src"] ["dist"] true
        { name := "server", buildOptions := serverBuildOverrides }).outfile
        = ["proj"] ++ ["dist"] ++ ["server" ++ ".js"]
    ∧ ((esbuildOptionsFor ["proj"] ["src"] ["dist"] true
        { name := "server", buildOptions := serverBuildOverrides }).dropLabels
        = some ["DEV"] ↔ (true : Bool) = true)
    ∧ (defaultContexts.all (fun d => d.buildOptions.bundle == none
        && d.buildOptions.entryPoints == none && d.buildOptions.outfile == none
        && d.buildOptions.dropLabels == none)) = true :=
  esbuild_options_default_fields ["proj"] ["src"] ["dist"] true
    { name := "server", buildOptions := serverBuildOverrides } rfl rfl rfl rfl

/-- C10: called with no paths option, clear deletes exactly dist, types and
fxmanifest.lua under the working directory, whereas build's initial clear
passes only the dist path, so the filesystem after a build's pre-build clear
retains types and fxmanifest.lua exactly as they were. -/
theorem clear_defaults_vs_build_clear (fs fs2 : List Path) (cwd : Path)
    (cfg : BuildRunCfg) (web : Option (Except String Unit))
    (hdist : cfg.distRel = ["dist"]) :
    clearFs fs cwd defaultClearPaths
      = fs.filter (fun q => !(pfx (cwd ++ ["dist"]) q || pfx (cwd ++ ["types"]) q
          || pfx (cwd ++ ["fxmanifest.lua"]) q))
    ∧ (buildRun cfg fs2 web).fs = fs2.filter (fun q => !pfx (cfg.cwd ++ ["dist"]) q)
    ∧ ((cfg.cwd ++ ["types"]) ∈ (buildRun cfg fs2 web).fs
        ↔ (cfg.cwd ++ ["types"]) ∈ fs2)
    ∧ ((cfg.cwd ++ ["fxmanifest.lua"]) ∈ (buildRun cfg fs2 web).fs
        ↔ (cfg.cwd ++ ["fxmanifest.lua"]) ∈ fs2) := by
  have hbfs : (buildRun cfg fs2 web).fs
      = fs2.filter (fun q => !pfx (cfg.cwd ++ ["dist"]) q) := by
    rw [buildRun_fs, hdist]
    show clearStepFs cfg.cwd fs2 ["dist"] = _
    rw [clearStepFs_eq_filter]
  have hty : pfx (cfg.cwd ++ ["dist"]) (cfg.cwd ++ ["types"]) = false := by
    rw [pfx_append_cancel]
    decide
  have hfx : pfx (cfg.cwd ++ ["dist"]) (cfg.cwd ++ ["fxmanifest.lua"]) = false := by
    rw [pfx_append_cancel]
    decide
  refine ⟨?_, hbfs, ?_, ?_⟩
  · show clearStepFs cwd (clearStepFs cwd (clearStepFs cwd fs ["dist"]) ["types"])
        ["fxmanifest.lua"] = _
    rw [clearStepFs_eq_filter, clearStepFs_eq_filter, clearStepFs_eq_filter,
      List.filter_filter, List.filter_filter]
    apply List.filter_congr
    intro q _
    cases hA : pfx (cwd ++ ["dist"]) q <;> cases hB : pfx (cwd ++ ["types"]) q <;>
      cases hC : pfx (cwd ++ ["fxmanifest.lua"]) q <;> simp [hA, hB, hC]
  · rw [hbfs]
    simp [List.mem_filter, hty]
  · rw [hbfs]
    simp [List.mem_filter, hfx]

/-- C10 witness: a filesystem holding all three generated paths; build's
pre-build clear in the same directory removes dist only. -/
theorem clear_defaults_vs_build_clear_witness :
    clearFs [["proj", "dist", "server.js"], ["proj", "types"],
        ["proj", "fxmanifest.lua"], ["proj", "src", "server", "index.ts"]]
        ["proj"] defaultClearPaths
      = [["proj", "dist", "server.js"], ["proj", "types"],
          ["proj", "fxmanifest.lua"], ["proj", "src", "server", "index.ts"]].filter
          (fun q => !(pfx (["proj"] ++ ["dist"]) q || pfx (["proj"] ++ ["types"]) q
            || pfx (["proj"] ++ ["fxmanifest.lua"]) q))
    ∧ (buildRun { cwd := ["proj"], includeWebBuild := false }
          [["proj", "dist", "server.js"], ["proj", "types"],
            ["proj", "fxmanifest.lua"]] none).fs
        = [["proj", "dist", "server.js"], ["proj", "types"],
            ["proj", "fxmanifest.lua"]].filter
            (fun q => !pfx ((["proj"] : Path) ++ ["dist"]) q)
    ∧ (((["proj"] : Path) ++ ["types"])
          ∈ (buildRun { cwd := ["proj"], includeWebBuild := false }
            [["proj", "dist", "server.js"], ["proj", "types"],
              ["proj", "fxmanifest.lua"]] none).fs
        ↔ ((["proj"] : Path) ++ ["types"])
          ∈ [["proj", "dist", "server.js"], ["proj", "types"],
              ["proj", "fxmanifest.lua"]])
    ∧ (((["proj"] : Path) ++ ["fxmanifest.lua"])
          ∈ (buildRun { cwd := ["proj"], includeWebBuild := false }
            [["proj", "dist", "server.js"], ["proj", "types"],
              ["proj", "fxmanifest.lua"]] none).fs
        ↔ ((["proj"] : Path) ++ ["fxmanifest.lua"])
          ∈ [["proj", "dist", "server.js"], ["proj", "types"],
              ["proj", "fxmanifest.lua"]]) :=
  clear_defaults_vs_build_clear
    [["proj", "dist", "server.js"], ["proj", "types"],
      ["proj", "fxmanifest.lua"], ["proj", "src", "server", "index.ts"]]
    [["proj", "dist", "server.js"], ["proj", "types"], ["proj", "fxmanifest.lua"]]
    ["proj"] { cwd := ["proj"], includeWebBuild := false } none rfl

end Builder
